import Mathlib

/-!
Verification development for the order-resolution engine of
`src/docs/agentcore-workshop/prerequisite/lambda/python/track_order.py`.

The Python module is embedded shallowly:

* Text is modelled as `List Char`; Python's `str.lower`, `str.strip`,
  `str.split`, and substring containment (`in`) are embedded by the
  executable functions `lowerStr`, `trimWs`, `splitWs`, `containsSub`.
* The regular expressions used by `parse_relative_date`
  (`(\d+)\s+days?\s+ago` and friends, searched with `re.search`) are
  embedded by the deterministic matchers `matchAgoAt` / `searchAgo` /
  `matchLastAt` / `searchLast`.  For these patterns the regex engine
  needs no backtracking (digits, whitespace, and the letter classes are
  pairwise disjoint at every choice point), so greedy maximal-munch
  matching at the leftmost feasible start position is exact.
* `datetime.now()` is modelled by an explicit `PyDateTime` value (days
  since 1970-01-01 plus seconds within the day) threaded to the
  functions that read the clock; `datetime.weekday()` (Monday = 0) and
  subtraction of a whole-day `timedelta` are embedded on that type.
  `strftime('%Y-%m-%d')` renders only the calendar-date part; since the
  Gregorian rendering is injective, a rendered date string is modelled
  by its day number (`Int`).  An order's `order_date` attribute is
  modelled as `Option Int`: `some d` for a string that is exactly the
  rendering of day `d`, `none` for any other string (such a string is
  never equal to a rendered date, which is all the engine observes).
* The DynamoDB table plus the SSM parameter fetch of
  `get_order_tracking_table` are modelled as a `StoreBehavior` record of
  `Except`-valued operations; a Python exception raised by an operation
  is the `Except.error` case carrying `str(e)`.  Every call into the
  store is also logged as a `StoreOp` so that theorems can speak about
  which store operations a resolution path performs.
-/

namespace TrackOrder

/-- Single-quote character (used inside several user-facing messages). -/
def sq : Char := Char.ofNat 39

/-- Python `str.lower` (ASCII, which is all the module manipulates). -/
def lowerStr (s : List Char) : List Char := s.map Char.toLower

/-- Python's whitespace class `\s` (ASCII part, as used by `str.strip`,
`str.split` and the `\s+` regex atoms). -/
def isWs (c : Char) : Bool :=
  c = ' ' || c = '\t' || c = '\n' || c = '\r' || c = Char.ofNat 11 || c = Char.ofNat 12

/-- Python `str.strip()`. -/
def trimWs (s : List Char) : List Char :=
  ((s.dropWhile isWs).reverse.dropWhile isWs).reverse

/-- Helper for `splitWs`: `cur` is the current (reversed) in-progress word. -/
def splitWsAux : List Char → List Char → List (List Char)
  | cur, [] => if cur = [] then [] else [cur.reverse]
  | cur, c :: t =>
    if isWs c then
      (if cur = [] then splitWsAux [] t else cur.reverse :: splitWsAux [] t)
    else
      splitWsAux (c :: cur) t

/-- Python `str.split()` (split on whitespace runs, no empty words). -/
def splitWs (s : List Char) : List (List Char) := splitWsAux [] s

/-- Python `needle in hay` on strings: substring containment. -/
def containsSub (needle : List Char) : List Char → Bool
  | [] => needle.isEmpty
  | c :: t => needle.isPrefixOf (c :: t) || containsSub needle t

/-- Value of a digit string, as `int(...)` on the regex capture. -/
def digitsToNat (ds : List Char) : Nat :=
  ds.foldl (fun a c => 10 * a + (c.toNat - '0'.toNat)) 0

/-- Regex `\s+` anchored at the head: require at least one whitespace
character, consume the maximal run, return the rest. -/
def takeWs1 (s : List Char) : Option (List Char) :=
  match s with
  | c :: t => if isWs c then some (t.dropWhile isWs) else none
  | [] => none

/-- Strip a literal prefix, as a regex literal anchored at the head. -/
def stripLit (lit s : List Char) : Option (List Char) :=
  if lit.isPrefixOf s then some (s.drop lit.length) else none

/-- The regex `(\d+)\s+<unit>s?\s+ago` matched at the start of `s`;
returns the value of the captured digit group on success. -/
def matchAgoAt (unit : List Char) (s : List Char) : Option Nat :=
  let ds := s.takeWhile Char.isDigit
  if ds = [] then none else
  match takeWs1 (s.dropWhile Char.isDigit) with
  | none => none
  | some r2 =>
    match stripLit unit r2 with
    | none => none
    | some r3 =>
      let r4 := match r3 with
                | c :: t => if c = 's' then t else r3
                | [] => r3
      match takeWs1 r4 with
      | none => none
      | some r5 => if ("ago".toList).isPrefixOf r5 then some (digitsToNat ds) else none

/-- `re.search` for `(\d+)\s+<unit>s?\s+ago`: leftmost match wins. -/
def searchAgo (unit : List Char) : List Char → Option Nat
  | [] => none
  | c :: t =>
    match matchAgoAt unit (c :: t) with
    | some n => some n
    | none => searchAgo unit t

/-- The regex `last\s+<unit>` matched at the start of `s`. -/
def matchLastAt (unit : List Char) (s : List Char) : Bool :=
  match stripLit ("last".toList) s with
  | none => false
  | some r1 =>
    match takeWs1 r1 with
    | none => false
    | some r2 => unit.isPrefixOf r2

/-- `re.search` for `last\s+<unit>`. -/
def searchLast (unit : List Char) : List Char → Bool
  | [] => false
  | c :: t => matchLastAt unit (c :: t) || searchLast unit t

/-- The `days_of_week` dictionary, in its (insertion-ordered) iteration
order. -/
def days_of_week : List (List Char × Nat) :=
  [("monday".toList, 0), ("tuesday".toList, 1), ("wednesday".toList, 2),
   ("thursday".toList, 3), ("friday".toList, 4), ("saturday".toList, 5),
   ("sunday".toList, 6)]

/-- The `for day_name, day_num in days_of_week.items()` loop: first
weekday whose phrase `"last <day_name>"` occurs in the text. -/
def findWeekday (ds : List Char) : Option Nat :=
  days_of_week.findSome? fun p =>
    if containsSub ("last ".toList ++ p.1) ds then some p.2 else none

/-- The `time_patterns` loop of `parse_relative_date`, in source order
(days, weeks, months, yesterday, last week, last month); returns the
day offset that the matching branch subtracts from `today`. -/
def findAgo (ds : List Char) : Option Int :=
  match searchAgo ("day".toList) ds with
  | some n => some (n : Int)
  | none =>
  match searchAgo ("week".toList) ds with
  | some n => some ((n : Int) * 7)
  | none =>
  match searchAgo ("month".toList) ds with
  | some n => some ((n : Int) * 30)
  | none =>
  if containsSub ("yesterday".toList) ds then some 1
  else if searchLast ("week".toList) ds then some 7
  else if searchLast ("month".toList) ds then some 30
  else none

/-- A Python `datetime`: days since 1970-01-01 plus seconds within the
day.  `datetime.now()` is embedded by passing such a value explicitly
(this is exactly where the source reads the wall clock). -/
structure PyDateTime where
  day : Int
  secs : Nat
deriving DecidableEq

/-- Python `datetime.weekday()`: Monday = 0; 1970-01-01 was a Thursday. -/
def weekday (t : PyDateTime) : Int := (t.day + 3) % 7

/-- `parse_relative_date` of the source, with the internal
`datetime.now()` read made explicit as the `now` argument.  The result
is the day number of the `strftime('%Y-%m-%d')` string (or `none` for
Python `None`). -/
def parse_relative_date (text : List Char) (now : PyDateTime) : Option Int :=
  let ds := trimWs (lowerStr text)
  match findWeekday ds with
  | some k =>
    let db0 := (weekday now - (k : Int)) % 7
    let db := if db0 = 0 then 7 else db0
    some (now.day - db)
  | none =>
    match findAgo ds with
    | some off => some (now.day - off)
    | none => none

example : parse_relative_date ("3 days ago".toList) ⟨10, 0⟩ = some 7 := by decide
example : parse_relative_date ("2 weeks ago".toList) ⟨100, 0⟩ = some 86 := by decide
example : parse_relative_date ("1 months ago".toList) ⟨100, 0⟩ = some 70 := by decide
example : parse_relative_date ("yesterday".toList) ⟨100, 0⟩ = some 99 := by decide
example : parse_relative_date ("sometime".toList) ⟨100, 0⟩ = none := by decide
-- day 4 = 1970-01-05, a Monday; the preceding Friday is day 1.
example : parse_relative_date ("last friday".toList) ⟨4, 0⟩ = some 1 := by decide
example : parse_relative_date ("last monday".toList) ⟨4, 0⟩ = some (-3) := by decide
example : parse_relative_date ("Last  Week".toList) ⟨4, 0⟩ = some (-3) := by decide
example : parse_relative_date ("13 days ago".toList) ⟨100, 0⟩ = some 87 := by decide

/-- The ten ASCII digits. -/
def digitChars : List Char := ['0', '1', '2', '3', '4', '5', '6', '7', '8', '9']

/-- Decidable sufficient condition used for C9: the (lowered, stripped)
text contains one of the parser's recognized phrases in canonical
single-space form — a weekday phrase, "yesterday", "last week",
"last month", or a digit directly followed by " days ago",
" weeks ago" or " months ago" (every numeric ago-phrase in canonical
spacing contains such a digit-led suffix). -/
def containsRecognizedPhrase (ds : List Char) : Bool :=
  days_of_week.any (fun p => containsSub ("last ".toList ++ p.1) ds)
  || containsSub ("yesterday".toList) ds
  || containsSub ("last week".toList) ds
  || containsSub ("last month".toList) ds
  || digitChars.any fun d =>
       containsSub (d :: " days ago".toList) ds
       || containsSub (d :: " weeks ago".toList) ds
       || containsSub (d :: " months ago".toList) ds

/-! ## The order data model -/

/-- A shipping address (`shipping_address` sub-dict of an order item). -/
structure Address where
  street : List Char
  city : List Char
  state : List Char
  zip_code : List Char
deriving DecidableEq

/-- One entry of an order's `items` list. -/
structure OrderItem where
  product_id : List Char
  quantity : Nat
  price_cents : Int
deriving DecidableEq

/-- A DynamoDB order record, with the attributes the module reads.
Attributes the demo data always carries are total fields (`.get`
defaults of the source are then dead); genuinely optional attributes
are `Option`.  `order_date` is `some d` when the stored string is the
rendering of day `d` (see the module comment), `none` otherwise.
Currency amounts (`order_total`, item `price`, rendered via `:.2f`) are
modelled in non-negative cents. -/
structure Order where
  order_id : List Char
  tracking_id : Option (List Char)
  customer_id : List Char
  product_name : List Char
  order_date : Option Int
  status : List Char
  order_total_cents : Int
  estimated_delivery : Option (List Char)
  shipping_address : Option Address
  items : List OrderItem
deriving DecidableEq

/-- The hardcoded `product_keywords` vocabulary, in source order. -/
def product_keywords : List (List Char) :=
  ["iphone".toList, "macbook".toList, "airpods".toList, "ipad".toList,
   "watch".toList, "tv".toList, "headphones".toList, "laptop".toList,
   "phone".toList, "tablet".toList, "console".toList, "playstation".toList,
   "xbox".toList]

/-- The per-order score accumulation of `search_orders_by_natural_query`
(lines 113-133 of the source): +2 per vocabulary keyword contained in
both the lowered query and the lowered product name, +3 when the parsed
query date equals `order_date`, and +1 per pair of a query word longer
than 3 characters with a product-name word such that one contains the
other. -/
def scoreOrder (ql : List Char) (parsed : Option Int) (o : Order) : Nat :=
  let pn := lowerStr o.product_name
  let s1 := product_keywords.foldl
    (fun s kw => if containsSub kw ql && containsSub kw pn then s + 2 else s) 0
  let s2 := s1 + (match parsed with
    | some p => if o.order_date = some p then 3 else 0
    | none => 0)
  let qwords := splitWs ql
  let pwords := splitWs pn
  qwords.foldl
    (fun s qw =>
      if 3 < qw.length then
        pwords.foldl
          (fun s2 pw => if containsSub qw pw || containsSub pw qw then s2 + 1 else s2) s
      else s) s2

/-- The `for order in orders` filtering loop: keep (in store order) each
order with positive score, paired with its `match_score`. -/
def collectMatches (ql : List Char) (parsed : Option Int) : List Order → List (Order × Nat)
  | [] => []
  | o :: rest =>
    let s := scoreOrder ql parsed o
    if 0 < s then (o, s) :: collectMatches ql parsed rest
    else collectMatches ql parsed rest

/-- Stable insertion for descending sort by `match_score`: an incoming
earlier element is placed before every later element whose score is not
larger, which is exactly the (unique) stable descending order that
Python's `list.sort(key=..., reverse=True)` produces. -/
def insertDesc (x : Order × Nat) : List (Order × Nat) → List (Order × Nat)
  | [] => [x]
  | y :: ys => if y.2 ≤ x.2 then x :: y :: ys else y :: insertDesc x ys

/-- `matching_orders.sort(key=lambda x: x.get('match_score', 0), reverse=True)`. -/
def sortDesc : List (Order × Nat) → List (Order × Nat)
  | [] => []
  | x :: xs => insertDesc x (sortDesc xs)

/-! ## The store collaborator -/

/-- One call into the external store (SSM parameter fetch or DynamoDB
operation), recorded so theorems can state which operations a
resolution path performs. -/
inductive StoreOp where
  | getParam
  | getItem (oid : List Char)
  | queryTracking (tid : List Char)
  | queryCustomer (cid : List Char)
  | scan
deriving DecidableEq

/-- Behaviour of the external collaborators: `getTable` is the
`get_order_tracking_table` SSM fetch, the rest are the DynamoDB calls.
`Except.error msg` models the operation raising an exception whose
`str(e)` is `msg`. -/
structure StoreBehavior where
  getTable : Except (List Char) Unit
  getItem : List Char → Except (List Char) (Option Order)
  queryTracking : List Char → Except (List Char) (List Order)
  queryCustomer : List Char → Except (List Char) (List Order)
  scan : Except (List Char) (List Order)

/-- Python truthiness of an optional string argument (`if order_id:`
etc.): present and non-empty. -/
def truthy : Option (List Char) → Bool
  | some s => !s.isEmpty
  | none => false

/-- The candidate set a free-text search draws from (source lines
91-110): the customer's orders when a truthy `customer_id` is supplied,
otherwise a full scan. -/
def storeList (B : StoreBehavior) (cid : Option (List Char)) : Except (List Char) (List Order) :=
  if truthy cid then B.queryCustomer (cid.getD []) else B.scan

/-- `search_orders_by_natural_query`.  A failing scan/query is caught
in the source (`print` + `return []`), hence yields `ok []`; a failing
`get_order_tracking_table` re-raises with a wrapped message, hence
yields `error`.  The second component is the store-call log. -/
def search_orders_by_natural_query (nq : List Char) (customer_id : Option (List Char))
    (B : StoreBehavior) (now : PyDateTime) :
    Except (List Char) (List (Order × Nat)) × List StoreOp :=
  match B.getTable with
  | .error e =>
      (.error ("Failed to get order tracking table: ".toList ++ e), [StoreOp.getParam])
  | .ok _ =>
    let ql := lowerStr nq
    let parsed := parse_relative_date ql now
    let op := if truthy customer_id then StoreOp.queryCustomer (customer_id.getD []) else StoreOp.scan
    match storeList B customer_id with
    | .error _ => (.ok [], [StoreOp.getParam, op])
    | .ok orders => (.ok (sortDesc (collectMatches ql parsed orders)), [StoreOp.getParam, op])

/-! ## Message formatting -/

/-- Decimal rendering of a `Nat` inside a message. -/
def natChars (n : Nat) : List Char := (Nat.repr n).toList

/-- Decimal rendering of an `Int` inside a message. -/
def intChars (i : Int) : List Char := (Int.repr i).toList

/-- Rendering of an `order_date` attribute inside a message.  The
actual `YYYY-MM-DD` text is abstracted to the (equally injective)
decimal day number; `none` stands for a stored string that is not a
rendered date. -/
def dateChars : Option Int → List Char
  | some d => intChars d
  | none => "<not-a-date>".toList

/-- Two-digit rendering of the cent part for `:.2f`. -/
def pad2 (n : Nat) : List Char := if n < 10 then '0' :: natChars n else natChars n

/-- `${amount:.2f}` rendering of a non-negative amount in cents. -/
def moneyChars (cents : Int) : List Char :=
  intChars (cents.ediv 100) ++ ".".toList ++ pad2 (cents.emod 100).toNat

/-- Python `str.title()` (ASCII). -/
def titleAux : Bool → List Char → List Char
  | _, [] => []
  | prev, c :: t =>
    if c.isAlpha then (if prev then c.toLower else c.toUpper) :: titleAux true t
    else c :: titleAux false t

/-- Python `str.title()` (ASCII). -/
def titleChars (s : List Char) : List Char := titleAux false s

/-- The `status_emojis` lookup with its `[PACKAGE]` default. -/
def statusEmoji (status : List Char) : List Char :=
  if status = "processing".toList then "PENDING".toList
  else if status = "shipped".toList then "[DELIVERY TRUCK]".toList
  else if status = "delivered".toList then "[WHITE HEAVY CHECK MARK]".toList
  else if status = "cancelled".toList then "[CROSS MARK]".toList
  else "[PACKAGE]".toList

/-- The status-specific closing message of `format_order_status`. -/
def statusTrailer (status : List Char) : List Char :=
  if status = "delivered".toList then
    "\n[PARTY POPPER] Your order has been delivered! We hope you enjoy your purchase.".toList
  else if status = "shipped".toList then
    "\n[OPEN MAILBOX WITH RAISED FLAG] Your order is on its way! You can track it using the tracking ID above.".toList
  else if status = "processing".toList then
    "\n[GEAR] Your order is being prepared for shipment. We'll notify you when it ships.".toList
  else if status = "cancelled".toList then
    "\n[BROKEN HEART] This order has been cancelled. If you have questions, please contact customer support.".toList
  else []

/-- The item lines of `format_order_status`. -/
def itemLines : List OrderItem → List Char
  | [] => []
  | it :: rest =>
    "• ".toList ++ natChars it.quantity ++ "x ".toList ++ it.product_id ++
    " - $".toList ++ moneyChars it.price_cents ++ "\n".toList ++ itemLines rest

/-- `format_order_status` of the source. -/
def format_order_status (o : Order) : List Char :=
  let status := o.status
  let r1 :=
    statusEmoji status ++ " **Order Status: ".toList ++ titleChars status ++ "**\n\n".toList
    ++ "[CLIPBOARD] **Order Details:**\n".toList
    ++ "• Order ID: ".toList ++ o.order_id ++ "\n".toList
    ++ "• Product: ".toList ++ o.product_name ++ "\n".toList
    ++ "• Order Date: ".toList ++ dateChars o.order_date ++ "\n".toList
    ++ "• Total: $".toList ++ moneyChars o.order_total_cents ++ "\n".toList
  let r2 := r1 ++
    (if truthy o.tracking_id then
       "• Tracking ID: ".toList ++ o.tracking_id.getD [] ++ "\n".toList
     else [])
  let r3 := r2 ++
    (if status = "shipped".toList || status = "processing".toList then
       "• Estimated Delivery: ".toList ++ o.estimated_delivery.getD ("N/A".toList) ++ "\n".toList
     else [])
  let r4 := r3 ++
    (match o.shipping_address with
     | some addr =>
         "\n[HOUSE BUILDING] **Shipping Address:**\n".toList
         ++ addr.street ++ "\n".toList
         ++ addr.city ++ ", ".toList ++ addr.state ++ " ".toList ++ addr.zip_code ++ "\n".toList
     | none => [])
  let r5 := r4 ++
    (if 1 < o.items.length then
       "\n[PACKAGE] **Items in this order:**\n".toList ++ itemLines o.items
     else [])
  r5 ++ statusTrailer status

/-- The `NotFound` message of the free-text branch ("No orders found
matching '<query>'. ..."). -/
def noOrdersMsg (nq : List Char) : List Char :=
  "[CROSS MARK] No orders found matching ".toList ++ [sq] ++ nq ++ [sq] ++
  ". Try being more specific or provide an order ID.".toList

/-- The all-identifiers-missing message ("Please provide an order ID,
tracking ID, customer ID, or describe your order ..."). -/
def insufficientMsg : List Char :=
  "[CROSS MARK] Please provide an order ID, tracking ID, customer ID, or describe your order (e.g., ".toList
  ++ [sq] ++ "my iPhone order from last Friday".toList ++ [sq] ++ ").".toList

/-- The enumerated candidate lines of the multiple-match message. -/
def ambiguousLines : List (Order × Nat) → Nat → List Char
  | [], _ => []
  | m :: rest, i =>
    natChars i ++ ". Order ".toList ++ m.1.order_id ++ " - ".toList ++ m.1.product_name
    ++ " (Status: ".toList ++ m.1.status ++ ", Date: ".toList ++ dateChars m.1.order_date
    ++ ")\n".toList ++ ambiguousLines rest (i + 1)

/-- The multiple-match message of the free-text branch (source lines
202-211): header with the total count, the top-5 lines, an overflow
note, and the closing instruction. -/
def ambiguousMsg (nq : List Char) (ms : List (Order × Nat)) : List Char :=
  "[LEFT-POINTING MAGNIFYING GLASS] Found ".toList ++ natChars ms.length
  ++ " orders matching ".toList ++ [sq] ++ nq ++ [sq] ++ ":\n\n".toList
  ++ ambiguousLines (ms.take 5) 1
  ++ (if 5 < ms.length then
        "\n... and ".toList ++ natChars (ms.length - 5) ++ " more orders.\n".toList
      else [])
  ++ "\nPlease provide a specific order ID for detailed information.".toList

/-- The shape of the free-text branch response as a function of the
matching list (source lines 195-211): no match, a single match, or the
multiple-match presentation. -/
def shapeMsg (nq : List Char) (ms : List (Order × Nat)) : List Char :=
  match ms with
  | [] => noOrdersMsg nq
  | [m] => format_order_status m.1
  | _ => ambiguousMsg nq ms

/-- Key comparison for the customer branch's
`sort(key=lambda x: x.get('order_date', ''), reverse=True)`: rendered
dates compare as their day numbers (`YYYY-MM-DD` strings are
order-isomorphic to day numbers); a missing/non-date value is modelled
as comparing low, like `''`. -/
def dateKeyGe (a b : Option Int) : Bool :=
  match a, b with
  | none, none => true
  | none, some _ => false
  | some _, none => true
  | some x, some y => y ≤ x

/-- Stable insertion for the customer branch's descending date sort. -/
def insertDateDesc (o : Order) : List Order → List Order
  | [] => [o]
  | y :: ys =>
    if dateKeyGe o.order_date y.order_date then o :: y :: ys else y :: insertDateDesc o ys

/-- The customer branch's stable descending sort by order date. -/
def sortDateDesc : List Order → List Order
  | [] => []
  | o :: rest => insertDateDesc o (sortDateDesc rest)

/-- The per-order lines of the customer branch's listing. -/
def customerLines : List Order → List Char
  | [] => []
  | o :: rest =>
    "• Order ".toList ++ o.order_id ++ " - ".toList ++ o.product_name
    ++ " (Status: ".toList ++ o.status ++ ", Date: ".toList ++ dateChars o.order_date
    ++ ")\n".toList ++ customerLines rest

/-- The customer branch's listing message (source lines 229-234). -/
def customerMsg (cid : List Char) (orders : List Order) : List Char :=
  "[PACKAGE] Recent orders for customer ".toList ++ cid ++ ":\n\n".toList
  ++ customerLines (orders.take 5)
  ++ "\nProvide a specific order ID for detailed tracking information.".toList

/-- `track_order` of the source.  Returns the response string together
with the log of store calls performed.  The outer `try/except` of the
source is the `.error` cases: every raised exception is converted into
an `"Error ..."` string, never re-raised. -/
def track_order (order_id tracking_id customer_id natural_query : Option (List Char))
    (B : StoreBehavior) (now : PyDateTime) : List Char × List StoreOp :=
  match B.getTable with
  | .error e =>
      ("[CROSS MARK] Error tracking order: Failed to get order tracking table: ".toList ++ e,
       [StoreOp.getParam])
  | .ok _ =>
    if truthy order_id then
      let oid := order_id.getD []
      match B.getItem oid with
      | .ok (some o) => (format_order_status o, [StoreOp.getParam, StoreOp.getItem oid])
      | .ok none =>
          ("[CROSS MARK] Order ".toList ++ oid ++
           " not found. Please check the order ID and try again.".toList,
           [StoreOp.getParam, StoreOp.getItem oid])
      | .error e =>
          ("[CROSS MARK] Error looking up order ".toList ++ oid ++ ": ".toList ++ e,
           [StoreOp.getParam, StoreOp.getItem oid])
    else if truthy tracking_id then
      let tid := tracking_id.getD []
      match B.queryTracking tid with
      | .ok (o :: _) => (format_order_status o, [StoreOp.getParam, StoreOp.queryTracking tid])
      | .ok [] =>
          ("[CROSS MARK] No order found with tracking ID ".toList ++ tid ++
           ". Please verify the tracking number.".toList,
           [StoreOp.getParam, StoreOp.queryTracking tid])
      | .error e =>
          ("[CROSS MARK] Error looking up tracking ID ".toList ++ tid ++ ": ".toList ++ e,
           [StoreOp.getParam, StoreOp.queryTracking tid])
    else if truthy natural_query then
      let nq := natural_query.getD []
      match search_orders_by_natural_query nq customer_id B now with
      | (Except.error e, tr) =>
          ("[CROSS MARK] Error tracking order: ".toList ++ e, StoreOp.getParam :: tr)
      | (Except.ok [], tr) => (noOrdersMsg nq, StoreOp.getParam :: tr)
      | (Except.ok [m], tr) => (format_order_status m.1, StoreOp.getParam :: tr)
      | (Except.ok ms, tr) => (ambiguousMsg nq ms, StoreOp.getParam :: tr)
    else if truthy customer_id then
      let cid := customer_id.getD []
      match B.queryCustomer cid with
      | Except.error e =>
          ("[CROSS MARK] Error looking up orders for customer ".toList ++ cid ++ ": ".toList ++ e,
           [StoreOp.getParam, StoreOp.queryCustomer cid])
      | Except.ok [] =>
          ("[CROSS MARK] No orders found for customer ".toList ++ cid ++ ".".toList,
           [StoreOp.getParam, StoreOp.queryCustomer cid])
      | Except.ok orders =>
          (customerMsg cid (sortDateDesc orders),
           [StoreOp.getParam, StoreOp.queryCustomer cid])
    else (insufficientMsg, [StoreOp.getParam])

/-! ## Concrete fixtures (used by sanity examples, witnesses and
counterexamples) -/

/-- An order record with the given id, product name and date; the
remaining attributes are fixed demo values. -/
def mkOrder (oid pname : List Char) (d : Option Int) : Order :=
  { order_id := oid, tracking_id := none, customer_id := "C1".toList,
    product_name := pname, order_date := d, status := "shipped".toList,
    order_total_cents := 99999, estimated_delivery := none,
    shipping_address := none, items := [] }

/-- Fixture: an order for the parsed "last friday" date of reference
Monday 1970-01-05. -/
def oA : Order := mkOrder ("A".toList) ("iphone".toList) (some 1)

/-- Fixture: an order with a non-matching date. -/
def oB : Order := mkOrder ("B".toList) ("iphone".toList) (some 0)

/-- A healthy store whose scan returns the given orders. -/
def okStore (orders : List Order) : StoreBehavior :=
  { getTable := .ok (), getItem := fun _ => .ok none,
    queryTracking := fun _ => .ok [], queryCustomer := fun _ => .ok [],
    scan := .ok orders }

/-- A store whose full scan raises with the given message. -/
def scanFailStore (e : List Char) : StoreBehavior :=
  { getTable := .ok (), getItem := fun _ => .ok none,
    queryTracking := fun _ => .ok [], queryCustomer := fun _ => .ok [],
    scan := .error e }

/-- A store where the SSM table-name fetch raises with the given message. -/
def tableFailStore (e : List Char) : StoreBehavior :=
  { getTable := .error e, getItem := fun _ => .ok none,
    queryTracking := fun _ => .ok [], queryCustomer := fun _ => .ok [],
    scan := .ok [] }

/-- A store where every DynamoDB operation raises with the given message. -/
def dbFailStore (e : List Char) : StoreBehavior :=
  { getTable := .ok (), getItem := fun _ => .error e,
    queryTracking := fun _ => .error e, queryCustomer := fun _ => .error e,
    scan := .error e }

/-- The fixed lowered query of C1's scenario. -/
def iphoneQuery : List Char := "iphone last friday".toList

-- Scoring sanity checks (reference date day 4 = Monday 1970-01-05, so
-- "last friday" parses to day 1).
example :
    scoreOrder ("iphone last friday".toList)
      (parse_relative_date ("iphone last friday".toList) ⟨4, 0⟩)
      (mkOrder ("A".toList) ("iphone".toList) (some 1)) = 8 := by decide
example :
    scoreOrder ("iphone last friday".toList)
      (parse_relative_date ("iphone last friday".toList) ⟨4, 0⟩)
      (mkOrder ("B".toList) ("iphone".toList) (some 0)) = 5 := by decide
example :
    scoreOrder ("iphone last friday".toList)
      (parse_relative_date ("iphone last friday".toList) ⟨4, 0⟩)
      (mkOrder ("C".toList) ("iphone iphone iphone iphone iphone".toList) (some 0)) = 9 := by
  decide
example :
    (track_order none none none none (okStore []) ⟨4, 0⟩).1 = insufficientMsg := by decide

/-! ## Helper lemmas -/

@[simp] theorem truthy_none : truthy none = false := rfl

@[simp] theorem truthy_some (s : List Char) : truthy (some s) = !s.isEmpty := rfl

/-- `containsSub` decides substring (infix) containment. -/
theorem containsSub_iff (n h : List Char) : containsSub n h = true ↔ n <:+: h := by
  induction h with
  | nil =>
      simp [containsSub, List.isEmpty_iff, List.infix_nil]
  | cons c t ih =>
      simp [containsSub, List.isPrefixOf_iff_prefix, ih, List.infix_cons_iff]

/-- Substring containment is transitive. -/
theorem containsSub_trans {a b c : List Char}
    (h1 : containsSub a b = true) (h2 : containsSub b c = true) :
    containsSub a c = true :=
  (containsSub_iff a c).mpr (((containsSub_iff a b).mp h1).trans ((containsSub_iff b c).mp h2))

/-- A conditional-accumulation `foldl` (the Python `score += k` loops)
equals the starting value plus a sum over the list. -/
theorem foldl_if_const {α : Type} (g : α → Bool) (k : Nat) :
    ∀ (l : List α) (a : Nat),
      l.foldl (fun s x => if g x then s + k else s) a
        = a + (l.map fun x => if g x then k else 0).sum := by
  intro l
  induction l with
  | nil => intro a; simp
  | cons x xs ih =>
      intro a
      cases hg : g x
      · simp [List.foldl_cons, hg, ih]
      · simp [List.foldl_cons, hg, ih]
        omega

/-- A `foldl` whose step adds a function of the element equals the
starting value plus a sum over the list. -/
theorem foldl_add_of_step {α : Type} (F : α → Nat) (step : Nat → α → Nat)
    (hstep : ∀ s x, step s x = s + F x) :
    ∀ (l : List α) (a : Nat), l.foldl step a = a + (l.map F).sum := by
  intro l
  induction l with
  | nil => intro a; simp
  | cons x xs ih => intro a; simp [List.foldl_cons, hstep, ih, Nat.add_assoc]

/-- The nested fuzzy-overlap loop, rewritten as a sum. -/
theorem foldl_fuzzy (pwords : List (List Char)) :
    ∀ (l : List (List Char)) (a : Nat),
      l.foldl
        (fun s qw =>
          if 3 < qw.length then
            pwords.foldl
              (fun s2 pw => if containsSub qw pw || containsSub pw qw then s2 + 1 else s2) s
          else s) a
      = a + (l.map fun qw =>
          if 3 < qw.length then
            (pwords.map fun pw => if containsSub qw pw || containsSub pw qw then 1 else 0).sum
          else 0).sum := by
  intro l
  induction l with
  | nil => intro a; simp
  | cons qw qws ih =>
      intro a
      by_cases hq : 3 < qw.length
      · rw [List.foldl_cons, if_pos hq, foldl_if_const, ih]
        simp only [List.map_cons, List.sum_cons]
        rw [if_pos hq]
        omega
      · rw [List.foldl_cons, if_neg hq, ih]
        simp only [List.map_cons, List.sum_cons]
        rw [if_neg hq]
        omega

/-- `scoreOrder`, rewritten from the accumulation loops of the source
into a sum of the three independent signals. -/
theorem scoreOrder_eq (ql : List Char) (parsed : Option Int) (o : Order) :
    scoreOrder ql parsed o =
      (product_keywords.map fun kw =>
        if containsSub kw ql && containsSub kw (lowerStr o.product_name) then 2 else 0).sum
      + (match parsed with
         | some p => if o.order_date = some p then 3 else 0
         | none => 0)
      + ((splitWs ql).map fun qw =>
          if 3 < qw.length then
            ((splitWs (lowerStr o.product_name)).map fun pw =>
              if containsSub qw pw || containsSub pw qw then 1 else 0).sum
          else 0).sum := by
  show
    ((splitWs ql).foldl
      (fun s qw =>
        if 3 < qw.length then
          (splitWs (lowerStr o.product_name)).foldl
            (fun s2 pw => if containsSub qw pw || containsSub pw qw then s2 + 1 else s2) s
        else s)
      ((product_keywords.foldl
          (fun s kw =>
            if containsSub kw ql && containsSub kw (lowerStr o.product_name) then s + 2 else s)
          0)
        + (match parsed with
           | some p => if o.order_date = some p then 3 else 0
           | none => 0))) = _
  rw [foldl_fuzzy, foldl_if_const]
  omega

/-- Membership in `insertDesc`. -/
theorem mem_insertDesc {x z : Order × Nat} {l : List (Order × Nat)} :
    z ∈ insertDesc x l ↔ z = x ∨ z ∈ l := by
  induction l with
  | nil => simp [insertDesc]
  | cons y ys ih =>
      by_cases h : y.2 ≤ x.2
      · simp [insertDesc, h]
      · simp [insertDesc, h, ih]
        tauto

/-- `insertDesc` preserves descending sortedness by score. -/
theorem pairwise_insertDesc (x : Order × Nat) (l : List (Order × Nat))
    (h : l.Pairwise fun a b => b.2 ≤ a.2) :
    (insertDesc x l).Pairwise fun a b => b.2 ≤ a.2 := by
  induction l with
  | nil => simp [insertDesc]
  | cons y ys ih =>
      rw [List.pairwise_cons] at h
      obtain ⟨hy, hys⟩ := h
      by_cases hc : y.2 ≤ x.2
      · rw [insertDesc, if_pos hc, List.pairwise_cons]
        refine ⟨?_, List.pairwise_cons.mpr ⟨hy, hys⟩⟩
        intro z hz
        rw [List.mem_cons] at hz
        rcases hz with rfl | hz
        · exact hc
        · exact le_trans (hy z hz) hc
      · rw [insertDesc, if_neg hc, List.pairwise_cons]
        refine ⟨?_, ih hys⟩
        intro z hz
        rcases mem_insertDesc.mp hz with rfl | hz
        · omega
        · exact hy z hz

/-- The output of `sortDesc` is sorted by score, descending. -/
theorem sortDesc_pairwise (l : List (Order × Nat)) :
    (sortDesc l).Pairwise fun a b => b.2 ≤ a.2 := by
  induction l with
  | nil => simp [sortDesc]
  | cons x xs ih => exact pairwise_insertDesc x (sortDesc xs) ih

/-- `sortDesc` permutes its input. -/
theorem sortDesc_perm (l : List (Order × Nat)) : (sortDesc l).Perm l := by
  induction l with
  | nil => simp [sortDesc]
  | cons x xs ih =>
      have hins : ∀ (y : Order × Nat) (m : List (Order × Nat)), (insertDesc y m).Perm (y :: m) := by
        intro y m
        induction m with
        | nil => simp [insertDesc]
        | cons z zs ihm =>
            by_cases h : z.2 ≤ y.2
            · simp [insertDesc, h]
            · simp only [insertDesc, h, if_neg, not_false_iff]
              exact (ihm.cons z).trans (List.Perm.swap y z zs)
      exact ((hins x (sortDesc xs)).trans (ih.cons x))

/-- Stability of `insertDesc`: elements placed before the inserted one
all have strictly larger score, so filtering to any fixed score gives
the same list as inserting at the head. -/
theorem filter_insertDesc (x : Order × Nat) (l : List (Order × Nat)) (s : Nat) :
    (insertDesc x l).filter (fun p => p.2 == s) = (x :: l).filter (fun p => p.2 == s) := by
  induction l with
  | nil => simp [insertDesc]
  | cons y ys ih =>
      by_cases hc : y.2 ≤ x.2
      · simp [insertDesc, hc]
      · have hlt : x.2 < y.2 := by omega
        by_cases hx : x.2 = s
        · have hy : ¬ (y.2 == s) = true := by
            simp only [beq_iff_eq]; omega
          simp only [insertDesc, hc, if_neg, not_false_iff, List.filter_cons]
          simp only [hy, if_neg, ih, List.filter_cons]
          simp [hx]
        · have hx' : ¬ (x.2 == s) = true := by simp only [beq_iff_eq]; omega
          simp only [insertDesc, hc, if_neg, not_false_iff, List.filter_cons]
          rw [ih]
          simp [List.filter_cons, hx']

/-- Stability of `sortDesc`: for every score value, the elements with
that score appear in the same relative order as in the input. -/
theorem sortDesc_filter (l : List (Order × Nat)) (s : Nat) :
    (sortDesc l).filter (fun p => p.2 == s) = l.filter (fun p => p.2 == s) := by
  induction l with
  | nil => simp [sortDesc]
  | cons x xs ih =>
      calc (sortDesc (x :: xs)).filter (fun p => p.2 == s)
          = ((x :: sortDesc xs).filter (fun p => p.2 == s)) := filter_insertDesc x (sortDesc xs) s
        _ = (x :: xs).filter (fun p => p.2 == s) := by
            simp only [List.filter_cons, ih]

/-- The filtering loop equals a `map` + positive-score `filter`. -/
theorem collectMatches_eq (ql : List Char) (parsed : Option Int) (l : List Order) :
    collectMatches ql parsed l
      = (l.map fun o => (o, scoreOrder ql parsed o)).filter fun p => 0 < p.2 := by
  induction l with
  | nil => simp [collectMatches]
  | cons o rest ih =>
      by_cases h : 0 < scoreOrder ql parsed o
      · simp [collectMatches, h, ih]
      · simp [collectMatches, h, ih]

/-- A supplied non-empty string argument is truthy. -/
theorem truthy_of_ne (s : List Char) (h : s ≠ []) : truthy (some s) = true := by
  simp [truthy, List.isEmpty_iff, h]

/-! ## Claim theorems -/

/-- C3: the claim asserts that `parse_relative_date` operates on a
caller-supplied "today" reference, independent of the wall clock.  In
the source, `today = datetime.now()` is read inside the function (line
24) and the signature takes only the text, so the reference date is not
injectable and the result varies with the system clock.  This theorem
evaluates the code at the failing input: the same text, parsed at two
different clock instants, yields two different dates. -/
theorem c3_wall_clock_dependence :
    parse_relative_date ("3 days ago".toList) ⟨100, 0⟩ = some 97 ∧
    parse_relative_date ("3 days ago".toList) ⟨50, 0⟩ = some 47 ∧
    parse_relative_date ("3 days ago".toList) ⟨100, 0⟩
      ≠ parse_relative_date ("3 days ago".toList) ⟨50, 0⟩ := by
  decide

/-- C10: the `(\d+)\s+days?\s+ago` (weeks/months) patterns accept a
zero count, and `today - timedelta(0)` is today itself, so a parsed
"ago" result need not lie strictly in the past. -/
theorem c10_zero_ago (now : PyDateTime) :
    parse_relative_date ("0 days ago".toList) now = some now.day ∧
    parse_relative_date ("0 weeks ago".toList) now = some now.day ∧
    parse_relative_date ("0 months ago".toList) now = some now.day := by
  refine ⟨?_, ?_, ?_⟩
  · simp only [parse_relative_date,
      (by decide : findWeekday (trimWs (lowerStr ("0 days ago".toList))) = none),
      (by decide : findAgo (trimWs (lowerStr ("0 days ago".toList))) = some 0)]
    simp
  · simp only [parse_relative_date,
      (by decide : findWeekday (trimWs (lowerStr ("0 weeks ago".toList))) = none),
      (by decide : findAgo (trimWs (lowerStr ("0 weeks ago".toList))) = some 0)]
    simp
  · simp only [parse_relative_date,
      (by decide : findWeekday (trimWs (lowerStr ("0 months ago".toList))) = none),
      (by decide : findAgo (trimWs (lowerStr ("0 months ago".toList))) = some 0)]
    simp

/-- C8 counterexample: the claim quantifies over every state of the
store, but `track_order` fetches the table handle before checking that
any identifier was supplied; when that fetch fails, the all-empty query
returns the wrapped error message instead of the
insufficient-information message. -/
theorem c8_counterexample :
    (track_order none none none none (tableFailStore ("boom".toList)) ⟨4, 0⟩).1
      ≠ insufficientMsg := by
  decide

/-- C8 (amended): provided the table-handle acquisition succeeds, the
all-empty query returns the insufficient-information `NotFound` message
regardless of the behaviour of every store operation, and performs no
store read beyond the parameter fetch. -/
theorem c8_empty_query (B : StoreBehavior) (now : PyDateTime)
    (ht : B.getTable = Except.ok ()) :
    track_order none none none none B now = (insufficientMsg, [StoreOp.getParam]) := by
  simp [track_order, ht]

/-- Witness for `c8_empty_query` at a concrete healthy store. -/
theorem c8_empty_query_witness :
    track_order none none none none (okStore []) ⟨4, 0⟩
      = (insufficientMsg, [StoreOp.getParam]) :=
  c8_empty_query (okStore []) ⟨4, 0⟩ rfl

/-- C7 counterexample: the claim says a supplied `order_id` always wins
and free-text search is never invoked, but the source gates the branch
on Python truthiness (`if order_id:`), so a supplied empty-string
`order_id` falls through to the free-text branch, which scans the
store. -/
theorem c7_counterexample :
    StoreOp.scan
      ∈ (track_order (some []) none none (some ("iphone".toList)) (okStore []) ⟨4, 0⟩).2 ∧
    (track_order (some []) none none (some ("iphone".toList)) (okStore []) ⟨4, 0⟩).1
      = noOrdersMsg ("iphone".toList) := by
  decide

/-- C7 (amended): for a supplied non-empty `order_id`, the result is
independent of `tracking_id`, `customer_id` and `natural_query`, and
the only store calls performed are the parameter fetch and the exact
key lookup — in particular the free-text search (scan/customer query,
and with them the date parser and scoring) is never invoked. -/
theorem c7_order_id_precedence (oid : List Char) (hoid : oid ≠ [])
    (tid cid nq : Option (List Char)) (B : StoreBehavior) (now : PyDateTime) :
    track_order (some oid) tid cid nq B now = track_order (some oid) none none none B now ∧
    ∀ op ∈ (track_order (some oid) tid cid nq B now).2,
      op = StoreOp.getParam ∨ op = StoreOp.getItem oid := by
  have htr : truthy (some oid) = true := truthy_of_ne oid hoid
  cases hB : B.getTable with
  | error e =>
      refine ⟨by simp [track_order, hB], ?_⟩
      intro op hop
      simp only [track_order, hB, List.mem_singleton] at hop
      exact Or.inl hop
  | ok u =>
      cases u
      cases hI : B.getItem oid with
      | error e =>
          refine ⟨by simp [track_order, hB, htr, hI], ?_⟩
          intro op hop
          simp only [track_order, hB, htr, if_true, Option.getD_some, hI, List.mem_cons,
            List.mem_singleton, List.not_mem_nil, or_false] at hop
          exact hop
      | ok oo =>
          cases oo with
          | none =>
              refine ⟨by simp [track_order, hB, htr, hI], ?_⟩
              intro op hop
              simp only [track_order, hB, htr, if_true, Option.getD_some, hI, List.mem_cons,
                List.mem_singleton, List.not_mem_nil, or_false] at hop
              exact hop
          | some o =>
              refine ⟨by simp [track_order, hB, htr, hI], ?_⟩
              intro op hop
              simp only [track_order, hB, htr, if_true, Option.getD_some, hI, List.mem_cons,
                List.mem_singleton, List.not_mem_nil, or_false] at hop
              exact hop

/-- Witness for `c7_order_id_precedence` at a concrete query that also
supplies a tracking id, a customer id and a natural query. -/
theorem c7_order_id_precedence_witness :
    track_order (some ("X1".toList)) (some ("T9".toList)) (some ("C1".toList))
        (some ("iphone".toList)) (okStore []) ⟨4, 0⟩
      = track_order (some ("X1".toList)) none none none (okStore []) ⟨4, 0⟩ ∧
    ∀ op ∈ (track_order (some ("X1".toList)) (some ("T9".toList)) (some ("C1".toList))
        (some ("iphone".toList)) (okStore []) ⟨4, 0⟩).2,
      op = StoreOp.getParam ∨ op = StoreOp.getItem ("X1".toList) :=
  c7_order_id_precedence ("X1".toList) (by decide) _ _ _ _ _

/-- Core of C6: for any weekday phrase that `findWeekday` resolves to
day number `k`, the parsed date is 1 to 7 days in the past, falls on
weekday `k`, is a multiple of 7 days back exactly when today falls on
weekday `k`, and is exactly 7 days back in that case. -/
theorem parse_last_weekday (name : List Char) (k : Nat) (now : PyDateTime)
    (hfw : findWeekday (trimWs (lowerStr ("last ".toList ++ name))) = some k)
    (hk : k < 7) :
    ∃ t : Int, parse_relative_date ("last ".toList ++ name) now = some t ∧
      t < now.day ∧ now.day - 7 ≤ t ∧ (t + 3) % 7 = (k : Int) ∧
      ((7 ∣ (now.day - t)) ↔ weekday now = (k : Int)) ∧
      (weekday now = (k : Int) → t = now.day - 7) := by
  simp only [parse_relative_date, hfw, weekday]
  set w := (now.day + 3) % 7 with hwdef
  by_cases h0 : (w - (k : Int)) % 7 = 0
  · rw [if_pos h0]
    refine ⟨now.day - 7, rfl, ?_, ?_, ?_, ?_, ?_⟩ <;> omega
  · rw [if_neg h0]
    refine ⟨now.day - (w - (k : Int)) % 7, rfl, ?_, ?_, ?_, ?_, ?_⟩ <;> omega

/-- C6: for every weekday name and every reference date, "last
<weekday>" parses to a date strictly before today, at most 7 days back,
falling on that weekday; the offset is divisible by 7 exactly when
today is that weekday, in which case the result is today minus 7. -/
theorem c6_last_weekday (now : PyDateTime) (p : List Char × Nat)
    (hp : p ∈ days_of_week) :
    ∃ t : Int, parse_relative_date ("last ".toList ++ p.1) now = some t ∧
      t < now.day ∧ now.day - 7 ≤ t ∧ (t + 3) % 7 = (p.2 : Int) ∧
      ((7 ∣ (now.day - t)) ↔ weekday now = (p.2 : Int)) ∧
      (weekday now = (p.2 : Int) → t = now.day - 7) := by
  fin_cases hp
  · exact parse_last_weekday ("monday".toList) 0 now (by decide) (by decide)
  · exact parse_last_weekday ("tuesday".toList) 1 now (by decide) (by decide)
  · exact parse_last_weekday ("wednesday".toList) 2 now (by decide) (by decide)
  · exact parse_last_weekday ("thursday".toList) 3 now (by decide) (by decide)
  · exact parse_last_weekday ("friday".toList) 4 now (by decide) (by decide)
  · exact parse_last_weekday ("saturday".toList) 5 now (by decide) (by decide)
  · exact parse_last_weekday ("sunday".toList) 6 now (by decide) (by decide)

/-- Witness for `c6_last_weekday`: "last friday" on Monday 1970-01-05. -/
theorem c6_last_weekday_witness :
    ∃ t : Int, parse_relative_date ("last ".toList ++ "friday".toList) ⟨4, 0⟩ = some t ∧
      t < (4 : Int) ∧ (4 : Int) - 7 ≤ t ∧ (t + 3) % 7 = ((4 : Nat) : Int) ∧
      ((7 ∣ ((4 : Int) - t)) ↔ weekday ⟨4, 0⟩ = ((4 : Nat) : Int)) ∧
      (weekday ⟨4, 0⟩ = ((4 : Nat) : Int) → t = (4 : Int) - 7) :=
  c6_last_weekday ⟨4, 0⟩ ("friday".toList, 4) (by decide)

/-- C2 counterexample: when the scan inside the free-text branch fails,
the source logs the error (`print`) and returns `[]`, so the caller
produces the generic no-orders message — the underlying error text
("boom") is *not* attached to the returned result, contradicting the
claim that every store failure attaches the error message. -/
theorem c2_counterexample :
    (track_order none none none (some ("iphone".toList)) (scanFailStore ("boom".toList)) ⟨4, 0⟩).1
      = noOrdersMsg ("iphone".toList) ∧
    containsSub ("boom".toList)
      (track_order none none none (some ("iphone".toList)) (scanFailStore ("boom".toList)) ⟨4, 0⟩).1
      = false := by
  decide

/-- C2 (amended): no store failure escapes as an exception — every path
returns a result string.  Failures of the table-handle fetch, the
order-id lookup, the tracking lookup, and the customer listing attach
the underlying error message to the returned `NotFound`-style text; a
scan failure — or a customer-index query failure when a truthy
`customer_id` accompanies the natural query — inside the free-text
branch instead yields the generic no-orders message without the error
text. -/
theorem c2_error_handling (B : StoreBehavior) (now : PyDateTime) (e : List Char) :
    (B.getTable = Except.error e →
      ∀ oid tid cid nq, (track_order oid tid cid nq B now).1
        = "[CROSS MARK] Error tracking order: Failed to get order tracking table: ".toList ++ e) ∧
    (∀ oid : List Char, oid ≠ [] → B.getTable = Except.ok () →
      B.getItem oid = Except.error e →
      (track_order (some oid) none none none B now).1
        = "[CROSS MARK] Error looking up order ".toList ++ oid ++ ": ".toList ++ e) ∧
    (∀ tid : List Char, tid ≠ [] → B.getTable = Except.ok () →
      B.queryTracking tid = Except.error e →
      (track_order none (some tid) none none B now).1
        = "[CROSS MARK] Error looking up tracking ID ".toList ++ tid ++ ": ".toList ++ e) ∧
    (∀ cid : List Char, cid ≠ [] → B.getTable = Except.ok () →
      B.queryCustomer cid = Except.error e →
      (track_order none none (some cid) none B now).1
        = "[CROSS MARK] Error looking up orders for customer ".toList ++ cid ++ ": ".toList ++ e) ∧
    (∀ nq : List Char, nq ≠ [] → B.getTable = Except.ok () →
      B.scan = Except.error e →
      (track_order none none none (some nq) B now).1 = noOrdersMsg nq) ∧
    (∀ nq cid : List Char, nq ≠ [] → cid ≠ [] → B.getTable = Except.ok () →
      B.queryCustomer cid = Except.error e →
      (track_order none none (some cid) (some nq) B now).1 = noOrdersMsg nq) := by
  refine ⟨?_, ?_, ?_, ?_, ?_, ?_⟩
  · intro h oid tid cid nq
    simp [track_order, h]
  · intro oid h0 ht hI
    simp [track_order, ht, truthy_of_ne oid h0, hI]
  · intro tid h0 ht hT
    simp [track_order, ht, truthy_of_ne tid h0, hT]
  · intro cid h0 ht hC
    simp [track_order, ht, truthy_of_ne cid h0, hC]
  · intro nq h0 ht hS
    simp [track_order, search_orders_by_natural_query, storeList, ht,
      truthy_of_ne nq h0, hS]
  · intro nq cid h0 h1 ht hC
    simp [track_order, search_orders_by_natural_query, storeList, ht,
      truthy_of_ne nq h0, truthy_of_ne cid h1, hC]

/-- Witness for `c2_error_handling` at concrete failing stores. -/
theorem c2_error_handling_witness :
    (track_order none none none none (tableFailStore ("boom".toList)) ⟨4, 0⟩).1
      = "[CROSS MARK] Error tracking order: Failed to get order tracking table: ".toList
        ++ "boom".toList ∧
    (track_order (some ("X1".toList)) none none none (dbFailStore ("boom".toList)) ⟨4, 0⟩).1
      = "[CROSS MARK] Error looking up order ".toList ++ "X1".toList ++ ": ".toList
        ++ "boom".toList ∧
    (track_order none none none (some ("iphone".toList)) (dbFailStore ("boom".toList)) ⟨4, 0⟩).1
      = noOrdersMsg ("iphone".toList) ∧
    (track_order none none (some ("C1".toList)) (some ("iphone".toList))
        (dbFailStore ("boom".toList)) ⟨4, 0⟩).1
      = noOrdersMsg ("iphone".toList) :=
  ⟨(c2_error_handling (tableFailStore ("boom".toList)) ⟨4, 0⟩ ("boom".toList)).1
      rfl none none none none,
   (c2_error_handling (dbFailStore ("boom".toList)) ⟨4, 0⟩ ("boom".toList)).2.1
      ("X1".toList) (by decide) rfl rfl,
   (c2_error_handling (dbFailStore ("boom".toList)) ⟨4, 0⟩ ("boom".toList)).2.2.2.2.1
      ("iphone".toList) (by decide) rfl rfl,
   (c2_error_handling (dbFailStore ("boom".toList)) ⟨4, 0⟩ ("boom".toList)).2.2.2.2.2
      ("iphone".toList) ("C1".toList) (by decide) (by decide) rfl rfl⟩

/-- On the query "iphone last friday", the keyword signal reduces to
the two vocabulary keywords contained in the query text, `iphone` and
`phone`. -/
theorem kwSum_iphoneQuery (pn : List Char) :
    (product_keywords.map fun kw =>
        if containsSub kw iphoneQuery && containsSub kw pn then 2 else 0).sum
      = (if containsSub ("iphone".toList) pn then 2 else 0)
        + (if containsSub ("phone".toList) pn then 2 else 0) := by
  have e1 : containsSub ['i', 'p', 'h', 'o', 'n', 'e'] iphoneQuery = true := by decide
  have e2 : containsSub ['m', 'a', 'c', 'b', 'o', 'o', 'k'] iphoneQuery = false := by decide
  have e3 : containsSub ['a', 'i', 'r', 'p', 'o', 'd', 's'] iphoneQuery = false := by decide
  have e4 : containsSub ['i', 'p', 'a', 'd'] iphoneQuery = false := by decide
  have e5 : containsSub ['w', 'a', 't', 'c', 'h'] iphoneQuery = false := by decide
  have e6 : containsSub ['t', 'v'] iphoneQuery = false := by decide
  have e7 : containsSub ['h', 'e', 'a', 'd', 'p', 'h', 'o', 'n', 'e', 's'] iphoneQuery = false := by decide
  have e8 : containsSub ['l', 'a', 'p', 't', 'o', 'p'] iphoneQuery = false := by decide
  have e9 : containsSub ['p', 'h', 'o', 'n', 'e'] iphoneQuery = true := by decide
  have e10 : containsSub ['t', 'a', 'b', 'l', 'e', 't'] iphoneQuery = false := by decide
  have e11 : containsSub ['c', 'o', 'n', 's', 'o', 'l', 'e'] iphoneQuery = false := by decide
  have e12 : containsSub ['p', 'l', 'a', 'y', 's', 't', 'a', 't', 'i', 'o', 'n'] iphoneQuery = false := by decide
  have e13 : containsSub ['x', 'b', 'o', 'x'] iphoneQuery = false := by decide
  simp [product_keywords, e1, e2, e3, e4, e5, e6, e7, e8, e9, e10, e11, e12, e13]

/-- "iphone last friday" always parses to a date (the "last friday"
branch fires for every reference date). -/
theorem parse_iphoneQuery (now : PyDateTime) :
    ∃ D : Int, parse_relative_date iphoneQuery now = some D := by
  simp only [parse_relative_date,
    (by decide : findWeekday (trimWs (lowerStr iphoneQuery)) = some 4)]
  exact ⟨_, rfl⟩

/-- C1 counterexample: reference Monday 1970-01-05 (day 4), parsed
"last friday" date = day 1.  An order matching on the keyword alone
scores 5, not 2 as the claim states (the `phone` keyword and the fuzzy
word overlap also fire); moreover a keyword-only order with a repeated
product name scores 9, strictly above the 8 of a keyword+date order,
so keyword+date does not always outrank keyword-only. -/
theorem c1_counterexample :
    parse_relative_date iphoneQuery ⟨4, 0⟩ = some 1 ∧
    scoreOrder iphoneQuery (parse_relative_date iphoneQuery ⟨4, 0⟩)
      (mkOrder ("B".toList) ("iphone".toList) (some 0)) = 5 ∧
    scoreOrder iphoneQuery (parse_relative_date iphoneQuery ⟨4, 0⟩)
      (mkOrder ("A".toList) ("iphone".toList) (some 1)) = 8 ∧
    scoreOrder iphoneQuery (parse_relative_date iphoneQuery ⟨4, 0⟩)
      (mkOrder ("C".toList) ("iphone iphone iphone iphone iphone".toList) (some 0)) = 9 := by
  decide

/-- C1 (amended): for the query "iphone last friday" and any reference
date, an order whose product name contains "iphone" scores at least 5
when its date matches the parsed date and at least 4 on the keyword
alone (not exactly 2); for two such orders with the same product name,
the date-matching one scores exactly 3 more, hence strictly higher —
but a keyword-only order with a different product name can outscore a
date-matching one (see the counterexample). -/
theorem c1_scoring (now : PyDateTime) (o o2 : Order)
    (hiph : containsSub ("iphone".toList) (lowerStr o.product_name) = true) :
    (o.order_date = parse_relative_date iphoneQuery now →
       5 ≤ scoreOrder iphoneQuery (parse_relative_date iphoneQuery now) o) ∧
    (o.order_date ≠ parse_relative_date iphoneQuery now →
       4 ≤ scoreOrder iphoneQuery (parse_relative_date iphoneQuery now) o) ∧
    (lowerStr o2.product_name = lowerStr o.product_name →
       o2.order_date = parse_relative_date iphoneQuery now →
       o.order_date ≠ parse_relative_date iphoneQuery now →
       scoreOrder iphoneQuery (parse_relative_date iphoneQuery now) o2
         = scoreOrder iphoneQuery (parse_relative_date iphoneQuery now) o + 3) := by
  obtain ⟨D, hD⟩ := parse_iphoneQuery now
  have hphone : containsSub ("phone".toList) (lowerStr o.product_name) = true :=
    containsSub_trans (by decide) hiph
  rw [hD]
  refine ⟨?_, ?_, ?_⟩
  · intro hdate
    rw [scoreOrder_eq, kwSum_iphoneQuery, if_pos hiph, if_pos hphone]
    simp [hdate]
    omega
  · intro hdate
    rw [scoreOrder_eq, kwSum_iphoneQuery, if_pos hiph, if_pos hphone]
    simp [hdate]
  · intro hnames h2 h1
    rw [scoreOrder_eq, scoreOrder_eq, kwSum_iphoneQuery, kwSum_iphoneQuery, hnames]
    simp [h2, h1]
    omega

/-- Witness for `c1_scoring` at concrete orders on Monday 1970-01-05. -/
theorem c1_scoring_witness :
    5 ≤ scoreOrder iphoneQuery (parse_relative_date iphoneQuery ⟨4, 0⟩)
        (mkOrder ("A".toList) ("iphone".toList) (some 1)) ∧
    scoreOrder iphoneQuery (parse_relative_date iphoneQuery ⟨4, 0⟩)
        (mkOrder ("A".toList) ("iphone".toList) (some 1))
      = scoreOrder iphoneQuery (parse_relative_date iphoneQuery ⟨4, 0⟩)
          (mkOrder ("B".toList) ("iphone".toList) (some 0)) + 3 :=
  ⟨(c1_scoring ⟨4, 0⟩ (mkOrder ("A".toList) ("iphone".toList) (some 1))
      (mkOrder ("A".toList) ("iphone".toList) (some 1)) (by decide)).1 (by decide),
   (c1_scoring ⟨4, 0⟩ (mkOrder ("B".toList) ("iphone".toList) (some 0))
      (mkOrder ("A".toList) ("iphone".toList) (some 1)) (by decide)).2.2
      (by decide) (by decide) (by decide)⟩

/-- C5: under a healthy table fetch, the free-text search returns
exactly the stable descending sort of the positively-scoring candidates
(in store order); every returned candidate has a positive score equal
to its order's score, the list is sorted by score non-increasingly, and
for every score value the candidates with that score keep the relative
order in which the store's scan/query returned them. -/
theorem c5_ranking (B : StoreBehavior) (now : PyDateTime) (nq : List Char)
    (cid : Option (List Char)) (orders : List Order)
    (ht : B.getTable = Except.ok ())
    (hs : storeList B cid = Except.ok orders) :
    (search_orders_by_natural_query nq cid B now
        = (Except.ok (sortDesc (collectMatches (lowerStr nq)
            (parse_relative_date (lowerStr nq) now) orders)),
           [StoreOp.getParam,
            if truthy cid then StoreOp.queryCustomer (cid.getD []) else StoreOp.scan])) ∧
    (∀ p ∈ sortDesc (collectMatches (lowerStr nq)
        (parse_relative_date (lowerStr nq) now) orders),
      0 < p.2 ∧ p.2 = scoreOrder (lowerStr nq) (parse_relative_date (lowerStr nq) now) p.1) ∧
    ((sortDesc (collectMatches (lowerStr nq)
        (parse_relative_date (lowerStr nq) now) orders)).Pairwise fun a b => b.2 ≤ a.2) ∧
    (∀ s : Nat,
      (sortDesc (collectMatches (lowerStr nq)
          (parse_relative_date (lowerStr nq) now) orders)).filter (fun p => p.2 == s)
        = (collectMatches (lowerStr nq)
            (parse_relative_date (lowerStr nq) now) orders).filter fun p => p.2 == s) ∧
    (collectMatches (lowerStr nq) (parse_relative_date (lowerStr nq) now) orders
      = (orders.map fun o =>
          (o, scoreOrder (lowerStr nq) (parse_relative_date (lowerStr nq) now) o)).filter
          fun p => 0 < p.2) := by
  refine ⟨?_, ?_, sortDesc_pairwise _, sortDesc_filter _, collectMatches_eq _ _ _⟩
  · simp only [search_orders_by_natural_query, ht, hs]
  · intro p hp
    have hmem : p ∈ collectMatches (lowerStr nq)
        (parse_relative_date (lowerStr nq) now) orders :=
      (sortDesc_perm _).mem_iff.mp hp
    rw [collectMatches_eq] at hmem
    simp only [List.mem_filter, List.mem_map, decide_eq_true_eq] at hmem
    obtain ⟨⟨o, _, rfl⟩, hpos⟩ := hmem
    exact ⟨hpos, rfl⟩

/-- Witness for `c5_ranking` at a concrete two-order store. -/
theorem c5_ranking_witness :
    (search_orders_by_natural_query ("iphone".toList) none (okStore [oA, oB]) ⟨4, 0⟩
        = (Except.ok (sortDesc (collectMatches (lowerStr ("iphone".toList))
            (parse_relative_date (lowerStr ("iphone".toList)) ⟨4, 0⟩) [oA, oB])),
           [StoreOp.getParam,
            if truthy none then StoreOp.queryCustomer ((none : Option (List Char)).getD [])
            else StoreOp.scan])) ∧
    (∀ p ∈ sortDesc (collectMatches (lowerStr ("iphone".toList))
        (parse_relative_date (lowerStr ("iphone".toList)) ⟨4, 0⟩) [oA, oB]),
      0 < p.2 ∧ p.2 = scoreOrder (lowerStr ("iphone".toList))
          (parse_relative_date (lowerStr ("iphone".toList)) ⟨4, 0⟩) p.1) ∧
    ((sortDesc (collectMatches (lowerStr ("iphone".toList))
        (parse_relative_date (lowerStr ("iphone".toList)) ⟨4, 0⟩) [oA, oB])).Pairwise
        fun a b => b.2 ≤ a.2) ∧
    (∀ s : Nat,
      (sortDesc (collectMatches (lowerStr ("iphone".toList))
          (parse_relative_date (lowerStr ("iphone".toList)) ⟨4, 0⟩) [oA, oB])).filter
          (fun p => p.2 == s)
        = (collectMatches (lowerStr ("iphone".toList))
            (parse_relative_date (lowerStr ("iphone".toList)) ⟨4, 0⟩) [oA, oB]).filter
            fun p => p.2 == s) ∧
    (collectMatches (lowerStr ("iphone".toList))
        (parse_relative_date (lowerStr ("iphone".toList)) ⟨4, 0⟩) [oA, oB]
      = (([oA, oB]).map fun o =>
          (o, scoreOrder (lowerStr ("iphone".toList))
            (parse_relative_date (lowerStr ("iphone".toList)) ⟨4, 0⟩) o)).filter
          fun p => 0 < p.2) :=
  c5_ranking (okStore [oA, oB]) ⟨4, 0⟩ ("iphone".toList) none [oA, oB] rfl rfl

/-- Under a healthy table fetch, the free-text search never raises:
its first component is always `ok`. -/
theorem search_ok_of_table (nq : List Char) (cid : Option (List Char))
    (B : StoreBehavior) (now : PyDateTime) (ht : B.getTable = Except.ok ()) :
    ∃ ms tr, search_orders_by_natural_query nq cid B now = (Except.ok ms, tr) := by
  cases hsl : storeList B cid with
  | error e =>
      exact ⟨[],
        [StoreOp.getParam,
         if truthy cid then StoreOp.queryCustomer (cid.getD []) else StoreOp.scan],
        by simp only [search_orders_by_natural_query, ht, hsl]⟩
  | ok orders =>
      exact ⟨sortDesc (collectMatches (lowerStr nq)
          (parse_relative_date (lowerStr nq) now) orders),
        [StoreOp.getParam,
         if truthy cid then StoreOp.queryCustomer (cid.getD []) else StoreOp.scan],
        by simp only [search_orders_by_natural_query, ht, hsl]⟩

/-- The natural-query branch of `track_order`, characterised by the
shape of the search result. -/
theorem track_order_freetext (B : StoreBehavior) (now : PyDateTime)
    (nq : List Char) (hnq : nq ≠ []) (cid : Option (List Char))
    (ms : List (Order × Nat)) (tr : List StoreOp)
    (ht : B.getTable = Except.ok ())
    (hsearch : search_orders_by_natural_query nq cid B now = (Except.ok ms, tr)) :
    track_order none none cid (some nq) B now
      = (shapeMsg nq ms, StoreOp.getParam :: tr) := by
  unfold track_order
  rw [ht]
  simp only [Option.getD_some, truthy_none, truthy_of_ne nq hnq]
  rw [hsearch]
  rcases ms with _ | ⟨m, _ | ⟨m2, rest⟩⟩ <;> simp [shapeMsg]

/-- C4: on a free-text resolution (truthy `natural_query`, `order_id`
and `tracking_id` unset) under a healthy table fetch, the response is
the `NotFound` message when no candidate scores above 0, the formatted
single order when exactly one does, and the multiple-match message
built from the full ranked list when two or more do; the ranked list
the branch works from is the complete sorted positive-score candidate
list (untruncated — only its presentation shows at most 5 entries). -/
theorem c4_freetext_shaping (B : StoreBehavior) (now : PyDateTime) (nq : List Char)
    (cid : Option (List Char)) (hnq : nq ≠ []) (ht : B.getTable = Except.ok ()) :
    ∃ ms tr, search_orders_by_natural_query nq cid B now = (Except.ok ms, tr) ∧
      (ms = [] → (track_order none none cid (some nq) B now).1 = noOrdersMsg nq) ∧
      (∀ m, ms = [m] → (track_order none none cid (some nq) B now).1 = format_order_status m.1) ∧
      (2 ≤ ms.length → (track_order none none cid (some nq) B now).1 = ambiguousMsg nq ms) ∧
      (∀ orders, storeList B cid = Except.ok orders →
        ms = sortDesc (collectMatches (lowerStr nq)
          (parse_relative_date (lowerStr nq) now) orders)) := by
  obtain ⟨ms, tr, hsearch⟩ := search_ok_of_table nq cid B now ht
  have htrack := track_order_freetext B now nq hnq cid ms tr ht hsearch
  refine ⟨ms, tr, hsearch, ?_, ?_, ?_, ?_⟩
  · intro h0
    subst h0
    rw [htrack]
    rfl
  · intro m hm
    subst hm
    rw [htrack]
    rfl
  · intro hlen
    rcases ms with _ | ⟨m, _ | ⟨m2, rest⟩⟩
    · simp at hlen
    · simp at hlen
    · rw [htrack]
      rfl
  · intro orders hsl
    have h2 : search_orders_by_natural_query nq cid B now
        = (Except.ok (sortDesc (collectMatches (lowerStr nq)
            (parse_relative_date (lowerStr nq) now) orders)),
           [StoreOp.getParam,
            if truthy cid then StoreOp.queryCustomer (cid.getD []) else StoreOp.scan]) := by
      simp only [search_orders_by_natural_query, ht, hsl]
    rw [h2] at hsearch
    exact (Except.ok.inj (congrArg Prod.fst hsearch)).symm

/-- Witness for `c4_freetext_shaping`: a two-candidate query yields the
multiple-match message built from the full ranked list. -/
theorem c4_freetext_shaping_witness :
    (track_order none none none (some ("iphone".toList)) (okStore [oA, oB]) ⟨4, 0⟩).1
      = ambiguousMsg ("iphone".toList) [(oA, 5), (oB, 5)] := by
  obtain ⟨ms, tr, hsearch, h1, h2, h3, h4⟩ :=
    c4_freetext_shaping (okStore [oA, oB]) ⟨4, 0⟩ ("iphone".toList) none (by decide) rfl
  have hms : ms = [(oA, 5), (oB, 5)] := by
    rw [h4 [oA, oB] rfl]
    decide
  rw [hms] at h3
  exact h3 (by decide)

/-- C9 counterexample: the claim says a recognized phrase surrounded by
arbitrary other words parses to the same date as the phrase alone; but
the surroundings can interfere: a weekday phrase is tried before the
"ago" patterns, a same-pattern phrase earlier in the text wins the
leftmost `re.search` match, and a digit adjacent to the phrase extends
the captured number.  Reference day 6 = Wednesday 1970-01-07. -/
theorem c9_counterexample :
    containsSub ("3 days ago".toList) ("last monday and 3 days ago".toList) = true ∧
    parse_relative_date ("3 days ago".toList) ⟨6, 0⟩ = some 3 ∧
    parse_relative_date ("last monday and 3 days ago".toList) ⟨6, 0⟩ = some 4 ∧
    containsSub ("3 days ago".toList) ("5 days ago and 3 days ago".toList) = true ∧
    parse_relative_date ("5 days ago and 3 days ago".toList) ⟨6, 0⟩ = some 1 ∧
    containsSub ("3 days ago".toList) ("13 days ago".toList) = true ∧
    parse_relative_date ("13 days ago".toList) ⟨6, 0⟩ = some (-7) := by
  decide

/-- `List.findSome?` on a cons, as a definitional equation. -/
theorem findSome?_cons_eq {α β : Type} (f : α → Option β) (a : α) (l : List α) :
    (a :: l).findSome? f = match f a with | some b => some b | none => l.findSome? f := rfl

/-- `List.findSome?` returns a value when some entry yields one. -/
theorem findSome?_isSome_of_mem {α β : Type} (f : α → Option β) :
    ∀ l : List α, (∃ a ∈ l, (f a).isSome = true) → (l.findSome? f).isSome = true := by
  intro l
  induction l with
  | nil =>
      rintro ⟨a, ha, _⟩
      cases ha
  | cons a t ih =>
      rintro ⟨b, hb, hfb⟩
      rw [findSome?_cons_eq]
      cases hfa : f a with
      | some c => simp
      | none =>
          rcases List.mem_cons.mp hb with rfl | hbt
          · rw [hfa] at hfb
            simp at hfb
          · exact ih ⟨b, hbt, hfb⟩

/-- A contained weekday phrase makes `findWeekday` succeed. -/
theorem findWeekday_isSome (ds : List Char)
    (h : days_of_week.any (fun p => containsSub ("last ".toList ++ p.1) ds) = true) :
    (findWeekday ds).isSome = true := by
  obtain ⟨p, hmem, hp⟩ := List.any_eq_true.mp h
  unfold findWeekday
  refine findSome?_isSome_of_mem _ days_of_week ⟨p, hmem, ?_⟩
  rw [if_pos hp]
  rfl

/-- Skipping a `days_of_week` entry whose phrase is absent. -/
theorem fw_cons_none (p : List Char × Nat) (l : List (List Char × Nat)) (ds : List Char)
    (h : containsSub ("last ".toList ++ p.1) ds = false) :
    ((p :: l).findSome? fun q => if containsSub ("last ".toList ++ q.1) ds then some q.2 else none)
      = l.findSome? fun q => if containsSub ("last ".toList ++ q.1) ds then some q.2 else none := by
  rw [findSome?_cons_eq]
  rw [if_neg (by intro hc; rw [h] at hc; simp at hc)]

/-- Stopping at a `days_of_week` entry whose phrase is present. -/
theorem fw_cons_some (p : List Char × Nat) (l : List (List Char × Nat)) (ds : List Char)
    (h : containsSub ("last ".toList ++ p.1) ds = true) :
    ((p :: l).findSome? fun q => if containsSub ("last ".toList ++ q.1) ds then some q.2 else none)
      = some p.2 := by
  rw [findSome?_cons_eq]
  rw [if_pos h]

/-- Every member of `digitChars` is a digit. -/
theorem digit_of_mem (d : Char) (h : d ∈ digitChars) : d.isDigit = true := by
  fin_cases h <;> decide

/-- The days-ago regex matches at a digit followed by " days ago". -/
theorem matchAgoAt_digit_days (d : Char) (hd : d.isDigit = true) (r : List Char) :
    (matchAgoAt ("day".toList) ((d :: " days ago".toList) ++ r)).isSome = true := by
  simp [matchAgoAt, takeWs1, stripLit, isWs, hd, List.takeWhile_cons, List.dropWhile_cons]

/-- The weeks-ago regex matches at a digit followed by " weeks ago". -/
theorem matchAgoAt_digit_weeks (d : Char) (hd : d.isDigit = true) (r : List Char) :
    (matchAgoAt ("week".toList) ((d :: " weeks ago".toList) ++ r)).isSome = true := by
  simp [matchAgoAt, takeWs1, stripLit, isWs, hd, List.takeWhile_cons, List.dropWhile_cons]

/-- The months-ago regex matches at a digit followed by " months ago". -/
theorem matchAgoAt_digit_months (d : Char) (hd : d.isDigit = true) (r : List Char) :
    (matchAgoAt ("month".toList) ((d :: " months ago".toList) ++ r)).isSome = true := by
  simp [matchAgoAt, takeWs1, stripLit, isWs, hd, List.takeWhile_cons, List.dropWhile_cons]

/-- `re.search` succeeds on a list when its pattern matches at the head
of some suffix. -/
theorem searchAgo_isSome_of_suffix (u : List Char) :
    ∀ ds s : List Char, s <:+ ds → (matchAgoAt u s).isSome = true →
      (searchAgo u ds).isSome = true := by
  intro ds
  induction ds with
  | nil =>
      intro s hs hm
      rw [List.suffix_nil] at hs
      subst hs
      simp [matchAgoAt] at hm
  | cons c t ih =>
      intro s hs hm
      rcases List.suffix_cons_iff.mp hs with hs1 | hs2
      · subst hs1
        simp only [searchAgo]
        cases hmm : matchAgoAt u (c :: t) with
        | some n => simp
        | none => rw [hmm] at hm; simp at hm
      · simp only [searchAgo]
        cases hmm : matchAgoAt u (c :: t) with
        | some n => simp
        | none => exact ih s hs2 hm

/-- Containment of a phrase whose every extension matches the ago-regex
makes the search succeed. -/
theorem searchAgo_isSome_of_contains (u phrase : List Char)
    (hmatch : ∀ r : List Char, (matchAgoAt u (phrase ++ r)).isSome = true)
    (ds : List Char) (h : containsSub phrase ds = true) :
    (searchAgo u ds).isSome = true := by
  obtain ⟨s, t, hst⟩ := (containsSub_iff _ _).mp h
  exact searchAgo_isSome_of_suffix u ds (phrase ++ t)
    ⟨s, by rw [← List.append_assoc]; exact hst⟩ (hmatch t)

/-- The `last\s+week` regex matches at the head of "last week". -/
theorem matchLastAt_week (r : List Char) :
    matchLastAt ("week".toList) ("last week".toList ++ r) = true := by
  simp [matchLastAt, stripLit, takeWs1, isWs]

/-- The `last\s+month` regex matches at the head of "last month". -/
theorem matchLastAt_month (r : List Char) :
    matchLastAt ("month".toList) ("last month".toList ++ r) = true := by
  simp [matchLastAt, stripLit, takeWs1, isWs]

/-- `re.search` for `last\s+<unit>` succeeds when the pattern matches at
the head of some suffix. -/
theorem searchLast_of_suffix (u : List Char) :
    ∀ ds s : List Char, s <:+ ds → matchLastAt u s = true → searchLast u ds = true := by
  intro ds
  induction ds with
  | nil =>
      intro s hs hm
      rw [List.suffix_nil] at hs
      subst hs
      simp [matchLastAt, stripLit] at hm
  | cons c t ih =>
      intro s hs hm
      rcases List.suffix_cons_iff.mp hs with hs1 | hs2
      · subst hs1
        simp [searchLast, hm]
      · simp [searchLast, ih s hs2 hm]

/-- Containment of a phrase whose every extension matches the
`last\s+<unit>` regex makes the search succeed. -/
theorem searchLast_of_contains (u phrase : List Char)
    (hmatch : ∀ r : List Char, matchLastAt u (phrase ++ r) = true)
    (ds : List Char) (h : containsSub phrase ds = true) :
    searchLast u ds = true := by
  obtain ⟨s, t, hst⟩ := (containsSub_iff _ _).mp h
  exact searchLast_of_suffix u ds (phrase ++ t)
    ⟨s, by rw [← List.append_assoc]; exact hst⟩ (hmatch t)

/-- `findAgo` succeeds whenever any of its six patterns fires. -/
theorem findAgo_isSome_cases (ds : List Char)
    (h : (searchAgo ("day".toList) ds).isSome = true
      ∨ (searchAgo ("week".toList) ds).isSome = true
      ∨ (searchAgo ("month".toList) ds).isSome = true
      ∨ containsSub ("yesterday".toList) ds = true
      ∨ searchLast ("week".toList) ds = true
      ∨ searchLast ("month".toList) ds = true) :
    (findAgo ds).isSome = true := by
  unfold findAgo
  cases hd : searchAgo ("day".toList) ds with
  | some n => simp
  | none =>
  cases hw : searchAgo ("week".toList) ds with
  | some n => simp
  | none =>
  cases hm : searchAgo ("month".toList) ds with
  | some n => simp
  | none =>
  cases hy : containsSub ("yesterday".toList) ds with
  | true => simp [hy]
  | false =>
  cases hlw : searchLast ("week".toList) ds with
  | true => simp [hy, hlw]
  | false =>
  cases hlm : searchLast ("month".toList) ds with
  | true => simp [hy, hlw, hlm]
  | false =>
      exfalso
      rcases h with h | h | h | h | h | h
      · rw [hd] at h; simp at h
      · rw [hw] at h; simp at h
      · rw [hm] at h; simp at h
      · rw [hy] at h; simp at h
      · rw [hlw] at h; simp at h
      · rw [hlm] at h; simp at h

/-- C9 (amended): recognition is by substring containment anywhere in
the input, not whole-string equality: (1) every text whose lowered,
stripped form contains a recognized phrase in canonical form (a weekday
phrase, "yesterday", "last week", "last month", or a digit directly
followed by " days ago" / " weeks ago" / " months ago") parses to some
date, never `None`; (2) a text containing "last friday" and none of
the weekday phrases earlier in the dictionary order parses exactly like
"last friday" alone, whatever the other surrounding words; (3) likewise
a concrete neutral embedding of "3 days ago".  The phrase-alone date is
*not* returned in general: a higher-priority phrase, a same-pattern
phrase earlier in the text, or a digit adjacent to the phrase changes
the result (see the counterexample). -/
theorem c9_substring_recognition :
    (∀ (text : List Char) (now : PyDateTime),
       containsRecognizedPhrase (trimWs (lowerStr text)) = true →
       (parse_relative_date text now).isSome = true) ∧
    (∀ (text : List Char) (now : PyDateTime),
       containsSub ("last friday".toList) (trimWs (lowerStr text)) = true →
       containsSub ("last monday".toList) (trimWs (lowerStr text)) = false →
       containsSub ("last tuesday".toList) (trimWs (lowerStr text)) = false →
       containsSub ("last wednesday".toList) (trimWs (lowerStr text)) = false →
       containsSub ("last thursday".toList) (trimWs (lowerStr text)) = false →
       parse_relative_date text now = parse_relative_date ("last friday".toList) now) ∧
    (∀ now : PyDateTime,
       parse_relative_date ("please track my order from 3 days ago thanks".toList) now
         = parse_relative_date ("3 days ago".toList) now) := by
  refine ⟨?_, ?_, ?_⟩
  · intro text now h
    simp only [parse_relative_date]
    cases hfw : findWeekday (trimWs (lowerStr text)) with
    | some k => simp
    | none =>
        have hago : (findAgo (trimWs (lowerStr text))).isSome = true := by
          unfold containsRecognizedPhrase at h
          simp only [Bool.or_eq_true] at h
          rcases h with (((hA | hY) | hLW) | hLM) | hD
          · exact absurd (findWeekday_isSome _ hA) (by simp [hfw])
          · exact findAgo_isSome_cases _ (Or.inr (Or.inr (Or.inr (Or.inl hY))))
          · exact findAgo_isSome_cases _ (Or.inr (Or.inr (Or.inr (Or.inr (Or.inl
              (searchLast_of_contains _ _ matchLastAt_week _ hLW))))))
          · exact findAgo_isSome_cases _ (Or.inr (Or.inr (Or.inr (Or.inr (Or.inr
              (searchLast_of_contains _ _ matchLastAt_month _ hLM))))))
          · obtain ⟨d, hdmem, hdisj⟩ := List.any_eq_true.mp hD
            have hdd : d.isDigit = true := digit_of_mem d hdmem
            simp only [Bool.or_eq_true] at hdisj
            rcases hdisj with (h1 | h2) | h3
            · exact findAgo_isSome_cases _ (Or.inl
                (searchAgo_isSome_of_contains _ _ (matchAgoAt_digit_days d hdd) _ h1))
            · exact findAgo_isSome_cases _ (Or.inr (Or.inl
                (searchAgo_isSome_of_contains _ _ (matchAgoAt_digit_weeks d hdd) _ h2)))
            · exact findAgo_isSome_cases _ (Or.inr (Or.inr (Or.inl
                (searchAgo_isSome_of_contains _ _ (matchAgoAt_digit_months d hdd) _ h3))))
        cases hfa : findAgo (trimWs (lowerStr text)) with
        | none =>
            rw [hfa] at hago
            simp at hago
        | some off => simp
  · intro text now h4 h0 h1 h2 h3
    have h0' : containsSub ("last ".toList ++ "monday".toList) (trimWs (lowerStr text)) = false := by
      rw [(by decide : ("last ".toList ++ "monday".toList : List Char) = "last monday".toList)]
      exact h0
    have h1' : containsSub ("last ".toList ++ "tuesday".toList) (trimWs (lowerStr text)) = false := by
      rw [(by decide : ("last ".toList ++ "tuesday".toList : List Char) = "last tuesday".toList)]
      exact h1
    have h2' : containsSub ("last ".toList ++ "wednesday".toList) (trimWs (lowerStr text)) = false := by
      rw [(by decide : ("last ".toList ++ "wednesday".toList : List Char) = "last wednesday".toList)]
      exact h2
    have h3' : containsSub ("last ".toList ++ "thursday".toList) (trimWs (lowerStr text)) = false := by
      rw [(by decide : ("last ".toList ++ "thursday".toList : List Char) = "last thursday".toList)]
      exact h3
    have h4' : containsSub ("last ".toList ++ "friday".toList) (trimWs (lowerStr text)) = true := by
      rw [(by decide : ("last ".toList ++ "friday".toList : List Char) = "last friday".toList)]
      exact h4
    have hfw : findWeekday (trimWs (lowerStr text)) = some 4 := by
      unfold findWeekday days_of_week
      rw [fw_cons_none ("monday".toList, 0) _ _ h0',
          fw_cons_none ("tuesday".toList, 1) _ _ h1',
          fw_cons_none ("wednesday".toList, 2) _ _ h2',
          fw_cons_none ("thursday".toList, 3) _ _ h3',
          fw_cons_some ("friday".toList, 4) _ _ h4']
    simp only [parse_relative_date, hfw,
      (by decide : findWeekday (trimWs (lowerStr ("last friday".toList))) = some 4)]
  · intro now
    simp only [parse_relative_date,
      (by decide : findWeekday (trimWs (lowerStr
        ("please track my order from 3 days ago thanks".toList))) = none),
      (by decide : findAgo (trimWs (lowerStr
        ("please track my order from 3 days ago thanks".toList))) = some 3),
      (by decide : findWeekday (trimWs (lowerStr ("3 days ago".toList))) = none),
      (by decide : findAgo (trimWs (lowerStr ("3 days ago".toList))) = some 3)]

/-- Witness for `c9_substring_recognition`: an "ago" phrase embedded in
other words still parses, and a "last friday" embedded among neutral
words parses like the phrase alone. -/
theorem c9_substring_recognition_witness :
    (parse_relative_date ("my iphone from 3 days ago".toList) ⟨6, 0⟩).isSome = true ∧
    parse_relative_date ("checking on my order from last friday please".toList) ⟨6, 0⟩
      = parse_relative_date ("last friday".toList) ⟨6, 0⟩ :=
  ⟨c9_substring_recognition.1 ("my iphone from 3 days ago".toList) ⟨6, 0⟩ (by decide),
   c9_substring_recognition.2.1 ("checking on my order from last friday please".toList) ⟨6, 0⟩
     (by decide) (by decide) (by decide) (by decide) (by decide)⟩

end TrackOrder
